import Mathlib

/-!
Shallow embedding of the tacos change-feed ingestion pipeline:
the CouchDB listener loop (src/app/services/couchdb_listener.py) and the
revalidation notifier (src/app/services/revalidate_posts.py).

External collaborators (the httpx stream, the ingestion step, the HTTP
client used by the notifier) are modelled as oracle inputs; the cursor
repository (LastSeqRepo, not present under src/) is modelled from the
spec as a durable state field written before each event is processed.

Python string primitives (startswith, endswith, removeprefix, slicing,
strip) are embedded as structural recursions over the character list of
a string, so that every definition evaluates by kernel reduction.
-/

namespace Tacos

/-- listBegins p s is true when the list s begins with the list p
(character-list core of Python startswith). -/
def listBegins : List Char → List Char → Bool
  | [], _ => true
  | _ :: _, [] => false
  | a :: as, b :: bs => a == b && listBegins as bs

/-- Python s.startswith(p). -/
def pyStartsWith (s p : String) : Bool := listBegins p.data s.data

/-- Python s.endswith(p). -/
def pyEndsWith (s p : String) : Bool := listBegins p.data.reverse s.data.reverse

/-- Python s[len(p):], as used by str.removeprefix once startswith holds. -/
def pyDropPre (s p : String) : String := ⟨s.data.drop p.data.length⟩

/-- Python s[:-n] for n at most len(s): drop the last n characters. -/
def pyDropLast (s : String) (n : Nat) : String := ⟨(s.data.reverse.drop n).reverse⟩

/-- Python s.strip(): remove leading and trailing whitespace. -/
def pyStrip (s : String) : String :=
  ⟨(((s.data.dropWhile Char.isWhitespace).reverse).dropWhile Char.isWhitespace).reverse⟩

/-- The two configured path roots, modelling settings.BLOG_PREFIX and
settings.KB_PREFIX (names shortened). -/
structure SettingsM where
  blogPre : String
  kbPre : String
  deriving Repr, DecidableEq

/-- The doc object carried by a change line: the fields read by
process_change via doc.get. A missing field is none; deleted models the
truthiness of doc.get("deleted", False). -/
structure DocM where
  docId : Option String
  type : Option String
  path : Option String
  deleted : Bool
  deriving Repr, DecidableEq

/-- One indexed chunk row of the Doc table (models app.models.doc.Doc,
referenced not owned): a stable document grouping key plus payload. -/
structure Chunk where
  document_id : String
  content : String
  deriving Repr, DecidableEq

/-- Python `a or b` over an optional string: `a` when present and
non-empty (truthy), else `b`. -/
def orElseStr (a : Option String) (b : String) : String :=
  match a with
  | none => b
  | some s => if s = "" then b else s

/-- Embedding of _extract_blog_slug (couchdb_listener.py lines 153-168):
candidate is the stripped ingested slug when non-blank, else
doc.get("path") or doc.get("_id") or ""; a candidate outside the blog
root gives none; otherwise the root is removed, a trailing ".md"
removed, whitespace stripped, and an empty remainder gives none. -/
def extract_blog_slug (s : SettingsM) (doc : DocM) (islug : Option String) : Option String :=
  let ing := pyStrip (islug.getD "")
  let candidate := if ing = "" then orElseStr doc.path (orElseStr doc.docId "") else ing
  if ¬ pyStartsWith candidate s.blogPre = true then none
  else
    let sl1 := pyDropPre candidate s.blogPre
    let sl2 := if pyEndsWith sl1 ".md" then pyDropLast sl1 3 else sl1
    let sl3 := pyStrip sl2
    if sl3 = "" then none else some sl3

/-- Spec wording of the fallback candidate: the path if present (a
usable non-empty value), else the document id, else nothing. -/
def specFallback (doc : DocM) : String :=
  match doc.path with
  | some p => if p = "" then (match doc.docId with | some i => i | none => "") else p
  | none => match doc.docId with | some i => i | none => ""

/-- Spec wording of the candidate: the ingested slug if present and
non-blank (after stripping), else the fallback candidate. -/
def specCandidate (doc : DocM) (islug : Option String) : String :=
  match islug with
  | some ingv => if pyStrip ingv = "" then specFallback doc else pyStrip ingv
  | none => specFallback doc

/-- Slug derivation written from the specification text (section 4.3),
for comparison with extract_blog_slug: a candidate under the blog root
has the root stripped, a trailing ".md" stripped and whitespace
stripped, an empty remainder meaning listing-only (none); a candidate
not under the blog root gives none. -/
def slug_spec (s : SettingsM) (doc : DocM) (islug : Option String) : Option String :=
  if pyStartsWith (specCandidate doc islug) s.blogPre then
    let afterPre := pyDropPre (specCandidate doc islug) s.blogPre
    let noMd := if pyEndsWith afterPre ".md" then pyDropLast afterPre 3 else afterPre
    let cleaned := pyStrip noMd
    if cleaned = "" then none else some cleaned
  else none

/-- Outcome of the external ingestion step ingest_fn (docs_ingester, an
external collaborator): ok returns the resolved slug and the index
contents it leaves behind; err models a raised exception, carrying the
index contents left by the failed attempt. -/
inductive Ingestion where
  | ok (islug : Option String) (newIdx : List Chunk)
  | err (pIdx : List Chunk)
  deriving Repr, DecidableEq

/-- Embedding of process_change (couchdb_listener.py lines 93-150).
Inputs: the optional doc of the change, the current index rows, the
ingestion oracle, and whether a revalidate function was supplied.
Output: the index rows afterwards and the list of slug arguments passed
to revalidate_posts_fn, in order. -/
def process_change (s : SettingsM) (dOpt : Option DocM) (idx : List Chunk)
    (ingest : Ingestion) (hasRev : Bool) : List Chunk × List (Option String) :=
  match dOpt with
  | none => (idx, [])
  | some doc =>
    if doc.deleted then
      let idx2 := idx.filter (fun c => ¬ some c.document_id = doc.docId)
      let notifs : List (Option String) :=
        if hasRev then
          let candidate := pyStrip (orElseStr doc.path (orElseStr doc.docId ""))
          if pyStartsWith candidate s.blogPre then [extract_blog_slug s doc none]
          else []
        else []
      (idx2, notifs)
    else if ¬ doc.type = some "plain" then (idx, [])
    else if ¬ (pyStartsWith (doc.path.getD "") s.blogPre = true
        ∨ pyStartsWith (doc.path.getD "") s.kbPre = true) then (idx, [])
    else
      match ingest with
      | Ingestion.err pIdx => (pIdx, [])
      | Ingestion.ok islug newIdx =>
        if ¬ hasRev then (newIdx, [])
        else
          match extract_blog_slug s doc islug with
          | none => (newIdx, [])
          | some sl => (newIdx, [some sl])

/-- State visible to one pass of the per-line loop of listen_changes:
the in-memory last_seq variable, the value durably stored by the cursor
repository, the index rows, and the slugs notified so far. The cursor
repository itself (LastSeqRepo, not under src/) is modelled from the
spec: set_last_position overwrites the single durable value. -/
structure LState where
  last_seq : String
  persisted_seq : String
  index : List Chunk
  notifs : List (Option String)
  deriving Repr, DecidableEq

/-- How the guarded call to process_change ends for one event line:
completed runs process_change with the given ingestion oracle; raised
models an exception escaping process_change (caught by the except
clause of the loop), carrying the partial effects it left behind. -/
inductive PCOutcome where
  | completed (ingest : Ingestion)
  | raised (pIdx : List Chunk) (pNotifs : List (Option String))
  deriving Repr, DecidableEq

/-- One non-stop line received on the stream, at the level the loop
body distinguishes: blank is a line whose strip is empty (heartbeat);
malformed is a line on which json.loads raises JSONDecodeError; event
is a parsed change with its optional seq field, optional doc, and the
outcome oracle of its processing. -/
inductive LineContent where
  | blank
  | malformed
  | event (seq : Option String) (dOpt : Option DocM) (outc : PCOutcome)
  deriving Repr, DecidableEq

/-- Embedding of the per-line body of listen_changes (lines 56-79):
blank lines are skipped; malformed lines are skipped with no cursor
write; a parsed event first sets last_seq to its seq (keeping the prior
value when seq is absent), persists that value, and only then lets the
processing outcome act on the index and notifications. -/
def process_line (s : SettingsM) (hasRev : Bool) (st : LState) (l : LineContent) : LState :=
  match l with
  | LineContent.blank => st
  | LineContent.malformed => st
  | LineContent.event seq dOpt outc =>
    let newSeq := seq.getD st.last_seq
    let st1 : LState := { st with last_seq := newSeq, persisted_seq := newSeq }
    match outc with
    | PCOutcome.completed ingest =>
      let r := process_change s dOpt st1.index ingest hasRev
      { st1 with index := r.1, notifs := st1.notifs ++ r.2 }
    | PCOutcome.raised pIdx pNotifs => { st1 with index := pIdx, notifs := st1.notifs ++ pNotifs }

/-- One iteration of the line loop: the stop flag as observed by the
check at the top of the iteration, then the line content. -/
structure LineItem where
  stopBefore : Bool
  content : LineContent
  deriving Repr, DecidableEq

/-- The for-line loop of listen_changes: each iteration first checks
the stop event and returns from the function when it is set (second
component true); otherwise it runs the line body and continues. The
stream ending (or erroring) is the list running out (second component
false), after which control reaches the backoff section. -/
def run_lines (s : SettingsM) (hasRev : Bool) : List LineItem → LState → LState × Bool
  | [], st => (st, false)
  | li :: rest, st =>
    if li.stopBefore then (st, true)
    else run_lines s hasRev rest (process_line s hasRev st li.content)

/-- State of the outer while loop of listen_changes: the line-loop
state plus the backoff variable, the recorded backoff wait durations,
and how many stream connections were opened. -/
structure OState where
  inner : LState
  backoff : Nat
  waits : List Nat
  conns : Nat
  deriving Repr, DecidableEq

/-- What one connection attempt does: connectFail is an httpx error (or
any exception) before streaming begins; connected opens the stream,
resets backoff to 1, and delivers the given lines before the stream
ends or errors. -/
inductive ConnOutcome where
  | connectFail
  | connected (lines : List LineItem)
  deriving Repr, DecidableEq

/-- The stop-flag observations and connection oracle of one pass of the
outer while loop: the flag at the while condition, the connection
outcome, and the flag at the check guarding the backoff wait. -/
structure OuterInput where
  stopAtTop : Bool
  conn : ConnOutcome
  stopAtBackoff : Bool
  deriving Repr, DecidableEq

/-- One pass of the body of the outer while loop (lines 27-90), after
the while condition was found false: try to connect and stream; if the
line loop returned (stop seen), the whole function returns (second
component true); otherwise, unless the stop flag is set at the backoff
check, wait for backoff seconds (recorded in waits) and double backoff
capped at 60. -/
def iterOuter (s : SettingsM) (hasRev : Bool) (i : OuterInput) (st : OState) : OState × Bool :=
  let attempt : OState × Bool :=
    match i.conn with
    | ConnOutcome.connectFail => (st, false)
    | ConnOutcome.connected lines =>
      let st1 : OState := { st with backoff := 1, conns := st.conns + 1 }
      let r := run_lines s hasRev lines st1.inner
      ({ st1 with inner := r.1 }, r.2)
  let st2 := attempt.1
  if attempt.2 then (st2, true)
  else if i.stopAtBackoff then (st2, false)
  else ({ st2 with waits := st2.waits ++ [st2.backoff], backoff := min (st2.backoff * 2) 60 }, false)

/-- The outer while loop of listen_changes: stop at the while condition
ends the loop; a pass that returned from inside the line loop ends the
function; otherwise the loop continues with the next input. -/
def outer_run (s : SettingsM) (hasRev : Bool) : List OuterInput → OState → OState
  | [], st => st
  | i :: rest, st =>
    if i.stopAtTop then st
    else
      let r := iterOuter s hasRev i st
      if r.2 then r.1
      else outer_run s hasRev rest r.1

/-- A run of n consecutive failed connection attempts with the stop
flag never set. -/
def failTrace (n : Nat) : List OuterInput :=
  List.replicate n ⟨false, ConnOutcome.connectFail, false⟩

/-- The waits produced by the backoff variable starting at b: each
failure waits b then updates b to min (b * 2) 60. -/
def waitsFrom : Nat → Nat → List Nat
  | _, 0 => []
  | b, n + 1 => b :: waitsFrom (min (b * 2) 60) n

/-- Configuration of RevalidatePostsService: the target url and the
shared secret ("" models an unset secret, falsy in Python). -/
structure RevService where
  url : String
  secret : String
  deriving Repr, DecidableEq

/-- One HTTP POST attempt recorded by the notifier: the url, the value
sent in the x-revalidate-secret header, and the body (none is an empty
body, some s is the JSON object with field slug set to s). -/
structure PostCall where
  url : String
  secretHeader : String
  body : Option String
  deriving Repr, DecidableEq

/-- Oracle for the outcome of client.post: a response with a status
code, or a raised transport error or timeout. -/
inductive HttpOutcome where
  | response (status : Nat)
  | raised
  deriving Repr, DecidableEq

/-- Embedding of RevalidatePostsService._post (revalidate_posts.py
lines 49-83): true only when the response status passes
raise_for_status, i.e. is 2xx; every raised exception is caught and
turned into false. -/
def rev_post_ok (out : HttpOutcome) : Bool :=
  match out with
  | HttpOutcome.raised => false
  | HttpOutcome.response status => if 200 ≤ status ∧ status < 300 then true else false

/-- Embedding of RevalidatePostsService.revalidate_posts (lines
31-47): with no secret, returns false and performs no POST; otherwise
builds the payload (the slug object only when slug is truthy, i.e.
neither None nor empty) and issues exactly one POST, returning the
result of _post. The second component lists the POST attempts made. -/
def revalidate_posts (svc : RevService) (slug : Option String) (out : HttpOutcome) :
    Bool × List PostCall :=
  if svc.secret = "" then (false, [])
  else
    let payload : Option String :=
      match slug with
      | some sl => if sl = "" then none else some sl
      | none => none
    (rev_post_ok out, [⟨svc.url, svc.secret, payload⟩])

/-- Splitting a chunk list by whether the grouping key matches d
preserves the total length. -/
lemma length_filter_not_add (l : List Chunk) (d : String) :
    (l.filter fun c => ¬ c.document_id = d).length
      + (l.filter fun c => c.document_id = d).length = l.length := by
  induction l with
  | nil => rfl
  | cons c t ih =>
    by_cases h : c.document_id = d <;>
      simp [List.filter_cons, h, ← ih] <;> omega

/-- The delete branch of process_change keeps exactly the chunks whose
grouping key differs from the deleted document id. -/
lemma process_change_deleted_idx (s : SettingsM) (doc : DocM) (idx : List Chunk)
    (ingest : Ingestion) (hasRev : Bool) (d : String)
    (hdel : doc.deleted = true) (hid : doc.docId = some d) :
    (process_change s (some doc) idx ingest hasRev).1
      = idx.filter (fun c => ¬ c.document_id = d) := by
  simp only [process_change, hdel, if_true]
  refine List.filter_congr ?_
  intro c _
  simp [hid]

/-- Claim C5: a well-formed delete event carrying document id d removes
exactly the N indexed chunks whose document_id equals d and keeps every
chunk with a different document_id. -/
theorem claim_C5 (s : SettingsM) (doc : DocM) (idx : List Chunk) (ingest : Ingestion)
    (hasRev : Bool) (d : String) (hdel : doc.deleted = true) (hid : doc.docId = some d) :
    (process_change s (some doc) idx ingest hasRev).1
        = idx.filter (fun c => ¬ c.document_id = d)
      ∧ (process_change s (some doc) idx ingest hasRev).1.length
          + (idx.filter (fun c => c.document_id = d)).length = idx.length
      ∧ ∀ c ∈ idx, ¬ c.document_id = d →
          c ∈ (process_change s (some doc) idx ingest hasRev).1 := by
  have h1 := process_change_deleted_idx s doc idx ingest hasRev d hdel hid
  refine ⟨h1, ?_, ?_⟩
  · rw [h1]; exact length_filter_not_add idx d
  · intro c hc hne
    rw [h1]
    exact List.mem_filter.2 ⟨hc, by simpa using hne⟩

/-- Claim C5 witness at a concrete delete event and two-chunk index. -/
theorem claim_C5_witness :
    (process_change ⟨"/blog/", "/kb/"⟩ (some ⟨some "d", none, some "/x", true⟩)
        [⟨"d", "a"⟩, ⟨"e", "b"⟩] (Ingestion.ok none []) false).1
      = [⟨"e", "b"⟩] ∧
    (process_change ⟨"/blog/", "/kb/"⟩ (some ⟨some "d", none, some "/x", true⟩)
        [⟨"d", "a"⟩, ⟨"e", "b"⟩] (Ingestion.ok none []) false).1.length + 1 = 2 := by
  have h := claim_C5 ⟨"/blog/", "/kb/"⟩ ⟨some "d", none, some "/x", true⟩
    [⟨"d", "a"⟩, ⟨"e", "b"⟩] (Ingestion.ok none []) false "d" rfl rfl
  refine ⟨?_, ?_⟩
  · rw [h.1]; decide
  · rw [h.1]; decide

/-- Claim C2 counterexample: a deleted doc whose declared type is
"other" (not "plain") still mutates the index and fires a
notification, because the delete branch runs before the type check. -/
theorem claim_C2_counterexample :
    ((some "other" : Option String) ≠ some "plain")
    ∧ ¬ (process_change ⟨"/blog/", "/kb/"⟩
          (some ⟨some "d", some "other", some "/blog/x", true⟩)
          [⟨"d", "c"⟩] (Ingestion.ok none []) true
        = ([⟨"d", "c"⟩], [])) := by
  refine ⟨by decide, by decide⟩

/-- Claim C2 as amended: for every non-deleted event whose declared
type is not "plain", or whose path lies under neither configured
root, process_change leaves the index unchanged and notifies nobody. -/
theorem claim_C2_amended (s : SettingsM) (doc : DocM) (idx : List Chunk)
    (ingest : Ingestion) (hasRev : Bool) (hnd : doc.deleted = false)
    (h : ¬ doc.type = some "plain"
      ∨ ¬ (pyStartsWith (doc.path.getD "") s.blogPre = true
            ∨ pyStartsWith (doc.path.getD "") s.kbPre = true)) :
    process_change s (some doc) idx ingest hasRev = (idx, []) := by
  rcases h with h | h
  · simp [process_change, hnd, h]
  · by_cases ht : doc.type = some "plain" <;> simp [process_change, hnd, h, ht]

/-- Claim C2 witness: a non-deleted doc of type "other" is a no-op. -/
theorem claim_C2_witness :
    process_change ⟨"/blog/", "/kb/"⟩ (some ⟨some "d", some "other", some "/blog/x", false⟩)
        [⟨"d", "c"⟩] (Ingestion.ok none []) true = ([⟨"d", "c"⟩], []) :=
  claim_C2_amended ⟨"/blog/", "/kb/"⟩ ⟨some "d", some "other", some "/blog/x", false⟩
    [⟨"d", "c"⟩] (Ingestion.ok none []) true rfl (Or.inl (by decide))

/-- Claim C10: when the ingestion step raises on a recognized indexable
document, process_change returns without any notification call. -/
theorem claim_C10 (s : SettingsM) (doc : DocM) (idx pIdx : List Chunk) (hasRev : Bool)
    (hnd : doc.deleted = false) (ht : doc.type = some "plain")
    (hp : pyStartsWith (doc.path.getD "") s.blogPre = true
        ∨ pyStartsWith (doc.path.getD "") s.kbPre = true) :
    (process_change s (some doc) idx (Ingestion.err pIdx) hasRev).2 = [] := by
  have hp2 : ¬ ¬ (pyStartsWith (doc.path.getD "") s.blogPre = true
      ∨ pyStartsWith (doc.path.getD "") s.kbPre = true) := not_not_intro hp
  simp [process_change, hnd, ht, hp2]

/-- Claim C10 witness at a concrete plain blog doc whose ingestion
raises. -/
theorem claim_C10_witness :
    (process_change ⟨"/blog/", "/kb/"⟩ (some ⟨some "d", some "plain", some "/blog/x", false⟩)
        [⟨"d", "a"⟩] (Ingestion.err [⟨"z", "w"⟩]) true).2 = [] :=
  claim_C10 ⟨"/blog/", "/kb/"⟩ ⟨some "d", some "plain", some "/blog/x", false⟩
    [⟨"d", "a"⟩] [⟨"z", "w"⟩] true rfl rfl (Or.inl (by decide))

/-- The Python or-chain used by _extract_blog_slug agrees with the
fallback candidate as the spec words it. -/
lemma orElseStr_eq_fallback (doc : DocM) :
    orElseStr doc.path (orElseStr doc.docId "") = specFallback doc := by
  obtain ⟨id?, ty, p?, del⟩ := doc
  cases p? <;> cases id? <;>
    simp only [specFallback, orElseStr] <;> split_ifs <;> simp_all

/-- The candidate computed by the code equals the candidate as the
spec words it. -/
lemma cand_eq (doc : DocM) (islug : Option String) :
    (if pyStrip (islug.getD "") = ""
       then orElseStr doc.path (orElseStr doc.docId "")
       else pyStrip (islug.getD ""))
      = specCandidate doc islug := by
  cases islug with
  | none =>
    simp [specCandidate, show pyStrip "" = "" from rfl, orElseStr_eq_fallback]
  | some v =>
    by_cases hv : pyStrip v = "" <;>
      simp [specCandidate, hv, orElseStr_eq_fallback]

/-- The code and the spec text compute the same slug for every doc and
ingested slug. -/
lemma extract_eq_spec (s : SettingsM) (doc : DocM) (islug : Option String) :
    extract_blog_slug s doc islug = slug_spec s doc islug := by
  have hc := cand_eq doc islug
  simp only [extract_blog_slug, slug_spec]
  rw [hc]
  by_cases h : pyStartsWith (specCandidate doc islug) s.blogPre = true <;> simp [h]

/-- Claim C3: the derived notification slug of the code equals the
slug-derivation algorithm of the spec at every input; in particular
path /blog/my-post.md under blog root /blog/ yields my-post, and path
/kb/article yields no notification in the ingest path. -/
theorem claim_C3 :
    (∀ (s : SettingsM) (doc : DocM) (islug : Option String),
        extract_blog_slug s doc islug = slug_spec s doc islug)
    ∧ extract_blog_slug ⟨"/blog/", "/kb/"⟩ ⟨some "x", none, some "/blog/my-post.md", false⟩ none
        = some "my-post"
    ∧ extract_blog_slug ⟨"/blog/", "/kb/"⟩ ⟨some "x", none, some "/kb/article", false⟩ none
        = none
    ∧ (process_change ⟨"/blog/", "/kb/"⟩
        (some ⟨some "x", some "plain", some "/kb/article", false⟩)
        [] (Ingestion.ok none [⟨"x", "c"⟩]) true).2 = [] := by
  refine ⟨extract_eq_spec, by decide, by decide, by decide⟩

/-- Claim C4 counterexample: in the ingest path, a candidate equal to
the blog root (remainder empty after stripping) produces NO
notification, because process_change only calls revalidate when the
derived slug is not none. -/
theorem claim_C4_counterexample :
    pyStartsWith (pyStrip (orElseStr (some "/blog/") (orElseStr (some "d") ""))) "/blog/" = true
    ∧ extract_blog_slug ⟨"/blog/", "/kb/"⟩ ⟨some "d", some "plain", some "/blog/", false⟩ none
        = none
    ∧ (process_change ⟨"/blog/", "/kb/"⟩
        (some ⟨some "d", some "plain", some "/blog/", false⟩)
        [] (Ingestion.ok none []) true).2 = []
    ∧ ¬ (process_change ⟨"/blog/", "/kb/"⟩
        (some ⟨some "d", some "plain", some "/blog/", false⟩)
        [] (Ingestion.ok none []) true).2 = [none] := by
  refine ⟨by decide, by decide, by decide, by decide⟩

/-- Claim C4 as amended: when the candidate starts with the blog root
and the stripped remainder is empty, the delete path still notifies
with a null slug, but the ingest path makes no notification call. -/
theorem claim_C4_amended :
    (∀ (s : SettingsM) (doc : DocM) (idx : List Chunk) (ingest : Ingestion),
        doc.deleted = true →
        pyStartsWith (pyStrip (orElseStr doc.path (orElseStr doc.docId ""))) s.blogPre = true →
        extract_blog_slug s doc none = none →
        (process_change s (some doc) idx ingest true).2 = [none])
    ∧ (∀ (s : SettingsM) (doc : DocM) (idx newIdx : List Chunk) (islug : Option String)
        (hasRev : Bool),
        doc.deleted = false → doc.type = some "plain" →
        (pyStartsWith (doc.path.getD "") s.blogPre = true
          ∨ pyStartsWith (doc.path.getD "") s.kbPre = true) →
        extract_blog_slug s doc islug = none →
        (process_change s (some doc) idx (Ingestion.ok islug newIdx) hasRev).2 = []) := by
  constructor
  · intro s doc idx ingest hdel hstart hnone
    simp [process_change, hdel, hstart, hnone]
  · intro s doc idx newIdx islug hasRev hnd ht hp hnone
    have hp2 : ¬ ¬ (pyStartsWith (doc.path.getD "") s.blogPre = true
        ∨ pyStartsWith (doc.path.getD "") s.kbPre = true) := not_not_intro hp
    by_cases hr : hasRev <;> simp [process_change, hnd, ht, hp2, hnone, hr]

/-- Claim C4 witness: prefix-only path /blog/ on a delete notifies with
a null slug, while the same path on an ingest notifies nobody. -/
theorem claim_C4_witness :
    (process_change ⟨"/blog/", "/kb/"⟩ (some ⟨some "d", none, some "/blog/", true⟩)
        [] (Ingestion.ok none []) true).2 = [none]
    ∧ (process_change ⟨"/blog/", "/kb/"⟩ (some ⟨some "d", some "plain", some "/blog/", false⟩)
        [] (Ingestion.ok none []) true).2 = [] :=
  ⟨claim_C4_amended.1 ⟨"/blog/", "/kb/"⟩ ⟨some "d", none, some "/blog/", true⟩
      [] (Ingestion.ok none []) rfl (by decide) (by decide),
   claim_C4_amended.2 ⟨"/blog/", "/kb/"⟩ ⟨some "d", some "plain", some "/blog/", false⟩
      [] [] none true rfl rfl (Or.inl (by decide)) (by decide)⟩

/-- Claim C1: a blank line leaves the loop state untouched; a
malformed line is skipped with no cursor write and the stream
continues; a parsed event persists its seq (or the prior cursor value
when seq is absent) and the persisted value is the same whatever the
processing outcome, including a raised exception; processing always
continues with the next line. -/
theorem claim_C1 (s : SettingsM) (hasRev : Bool) (st : LState) (seq : Option String)
    (dOpt : Option DocM) (outc : PCOutcome) (l : LineContent) (rest : List LineItem) :
    process_line s hasRev st LineContent.blank = st
    ∧ process_line s hasRev st LineContent.malformed = st
    ∧ (process_line s hasRev st (LineContent.event seq dOpt outc)).persisted_seq
        = seq.getD st.last_seq
    ∧ (process_line s hasRev st (LineContent.event seq dOpt outc)).last_seq
        = seq.getD st.last_seq
    ∧ run_lines s hasRev (⟨false, l⟩ :: rest) st
        = run_lines s hasRev rest (process_line s hasRev st l) := by
  refine ⟨rfl, rfl, ?_, ?_, ?_⟩
  · cases outc <;> rfl
  · cases outc <;> rfl
  · rfl

/-- Claim C9: with the stop flag set, the line loop returns at its
next check with the state untouched; the backoff check skips the wait
entirely; the while condition ends the loop, so no further connection
is ever opened once every later observation of the flag is true. -/
theorem claim_C9 (s : SettingsM) (hasRev : Bool) (st : OState) (li : LineItem)
    (ls : List LineItem) (i : OuterInput) (rest inputs : List OuterInput) :
    (li.stopBefore = true → run_lines s hasRev (li :: ls) st.inner = (st.inner, true))
    ∧ (i.stopAtBackoff = true → (iterOuter s hasRev i st).1.waits = st.waits)
    ∧ (i.stopAtTop = true → outer_run s hasRev (i :: rest) st = st)
    ∧ ((∀ j ∈ inputs, j.stopAtTop = true) → outer_run s hasRev inputs st = st) := by
  refine ⟨?_, ?_, ?_, ?_⟩
  · intro h; simp [run_lines, h]
  · intro h
    cases hc : i.conn with
    | connectFail => simp [iterOuter, hc, h]
    | connected lines =>
      by_cases hr : (run_lines s hasRev lines st.inner).2 <;>
        simp [iterOuter, hc, h, hr]
  · intro h; simp [outer_run, h]
  · intro h
    cases inputs with
    | nil => rfl
    | cons j rest2 => simp [outer_run, h j (List.mem_cons_self _ _)]

/-- Claim C9 witness at a concrete state and concrete stop-flag
observations. -/
theorem claim_C9_witness :
    run_lines ⟨"/blog/", "/kb/"⟩ true [⟨true, LineContent.blank⟩]
        (⟨⟨"s0", "s0", [], []⟩, 1, [], 0⟩ : OState).inner
      = ((⟨⟨"s0", "s0", [], []⟩, 1, [], 0⟩ : OState).inner, true)
    ∧ (iterOuter ⟨"/blog/", "/kb/"⟩ true ⟨false, ConnOutcome.connectFail, true⟩
        ⟨⟨"s0", "s0", [], []⟩, 1, [], 0⟩).1.waits
      = (⟨⟨"s0", "s0", [], []⟩, 1, [], 0⟩ : OState).waits
    ∧ outer_run ⟨"/blog/", "/kb/"⟩ true [⟨true, ConnOutcome.connectFail, false⟩]
        ⟨⟨"s0", "s0", [], []⟩, 1, [], 0⟩
      = ⟨⟨"s0", "s0", [], []⟩, 1, [], 0⟩
    ∧ outer_run ⟨"/blog/", "/kb/"⟩ true
        [⟨true, ConnOutcome.connectFail, false⟩, ⟨true, ConnOutcome.connectFail, true⟩]
        ⟨⟨"s0", "s0", [], []⟩, 1, [], 0⟩
      = ⟨⟨"s0", "s0", [], []⟩, 1, [], 0⟩ := by
  have h := claim_C9 ⟨"/blog/", "/kb/"⟩ true ⟨⟨"s0", "s0", [], []⟩, 1, [], 0⟩
    ⟨true, LineContent.blank⟩ [] ⟨false, ConnOutcome.connectFail, true⟩ []
    [⟨true, ConnOutcome.connectFail, false⟩, ⟨true, ConnOutcome.connectFail, true⟩]
  have h2 := claim_C9 ⟨"/blog/", "/kb/"⟩ true ⟨⟨"s0", "s0", [], []⟩, 1, [], 0⟩
    ⟨true, LineContent.blank⟩ [] ⟨true, ConnOutcome.connectFail, false⟩ [] []
  exact ⟨h.1 rfl, h.2.1 rfl, h2.2.2.1 rfl,
    h.2.2.2 (by decide)⟩

/-- The backoff variable after n doubling steps from b. -/
def backoffIter : Nat → Nat → Nat
  | b, 0 => b
  | b, n + 1 => backoffIter (min (b * 2) 60) n

/-- Running n consecutive failed connection attempts appends the waits
generated by the backoff recurrence and leaves the rest of the state
unchanged. -/
lemma outer_run_failTrace (s : SettingsM) (hasRev : Bool) :
    ∀ (n : Nat) (st : OState),
      outer_run s hasRev (failTrace n) st
        = { st with waits := st.waits ++ waitsFrom st.backoff n,
                    backoff := backoffIter st.backoff n } := by
  intro n
  induction n with
  | zero => intro st; simp [failTrace, outer_run, waitsFrom, backoffIter]
  | succ k ih =>
    intro st
    have hrep : failTrace (k + 1)
        = (⟨false, ConnOutcome.connectFail, false⟩ : OuterInput) :: failTrace k := by
      simp [failTrace, List.replicate_succ]
    rw [hrep]
    show outer_run s hasRev (failTrace k)
        { st with waits := st.waits ++ [st.backoff], backoff := min (st.backoff * 2) 60 }
      = _
    rw [ih]
    simp [waitsFrom, backoffIter]

/-- The waits of the backoff recurrence started at min (2 pow j) 60
follow the capped powers of two. -/
lemma waitsFrom_pow :
    ∀ (n j : Nat), waitsFrom (min (2 ^ j) 60) n
      = (List.range n).map (fun k => min (2 ^ (j + k)) 60) := by
  intro n
  induction n with
  | zero => intro j; simp [waitsFrom]
  | succ m ih =>
    intro j
    have hstep : min (min (2 ^ j) 60 * 2) 60 = min (2 ^ (j + 1)) 60 := by
      rcases le_total (2 ^ j) 60 with h | h
      · rw [min_eq_left h, pow_succ]
      · have hj : (60 : Nat) ≤ 2 ^ j := h
        have hj2 : (60 : Nat) ≤ 2 ^ (j + 1) := by
          rw [pow_succ]; omega
        rw [min_eq_right hj, min_eq_right hj2]
        omega
    rw [waitsFrom, hstep, ih (j + 1), List.range_succ_eq_map]
    simp only [List.map_cons, List.map_map]
    refine congrArg₂ List.cons (by simp) ?_
    refine List.map_congr_left ?_
    intro a _
    simp [Function.comp, Nat.add_assoc, Nat.add_comm 1 a]

/-- Claim C6: starting from backoff 1, the wait after the n-th
consecutive failed connection attempt is min (2 pow (n - 1)) 60
seconds (the k-th entry of the recorded list, k = n - 1, is
min (2 pow k) 60), and a successful connection resets backoff so that
the next wait is 1 second again. -/
theorem claim_C6 (s : SettingsM) (hasRev : Bool) (st st2 : OState) (n : Nat)
    (lines : List LineItem) (hb : st.backoff = 1)
    (hret : (run_lines s hasRev lines st2.inner).2 = false) :
    (outer_run s hasRev (failTrace n) st).waits
        = st.waits ++ (List.range n).map (fun k => min (2 ^ k) 60)
    ∧ (iterOuter s hasRev ⟨false, ConnOutcome.connected lines, false⟩ st2).1.waits
        = st2.waits ++ [1] := by
  constructor
  · have h0 := congrArg OState.waits (outer_run_failTrace s hasRev n st)
    rw [h0]
    show st.waits ++ waitsFrom st.backoff n = _
    have h1 : st.backoff = min (2 ^ 0) 60 := by rw [hb]; decide
    rw [h1, waitsFrom_pow]
    simp
  · simp [iterOuter, hret]

/-- Claim C6 witness: seven straight failures from a fresh state wait
1, 2, 4, 8, 16, 32, 60 seconds, and a successful connection after the
backoff grew to 9 makes the next wait 1 second again. -/
theorem claim_C6_witness :
    (outer_run ⟨"/blog/", "/kb/"⟩ true (failTrace 7)
        ⟨⟨"s0", "s0", [], []⟩, 1, [], 0⟩).waits = [1, 2, 4, 8, 16, 32, 60]
    ∧ (iterOuter ⟨"/blog/", "/kb/"⟩ true ⟨false, ConnOutcome.connected [], false⟩
        ⟨⟨"s0", "s0", [], []⟩, 9, [], 0⟩).1.waits = [1] := by
  have h := claim_C6 ⟨"/blog/", "/kb/"⟩ true ⟨⟨"s0", "s0", [], []⟩, 1, [], 0⟩
    ⟨⟨"s0", "s0", [], []⟩, 9, [], 0⟩ 7 [] rfl rfl
  constructor
  · rw [h.1]; decide
  · rw [h.2]; decide

/-- Claim C7: revalidate_posts is a total function of its oracle (it
never raises): with no secret it returns false with zero POST
attempts; with a secret, a raised transport error or timeout gives
false, and a non-2xx response gives false. -/
theorem claim_C7 (svc : RevService) (slug : Option String) (out : HttpOutcome)
    (status : Nat) :
    (svc.secret = "" → revalidate_posts svc slug out = (false, []))
    ∧ (out = HttpOutcome.raised → (revalidate_posts svc slug out).1 = false)
    ∧ (out = HttpOutcome.response status → ¬ (200 ≤ status ∧ status < 300) →
        (revalidate_posts svc slug out).1 = false) := by
  refine ⟨?_, ?_, ?_⟩
  · intro h; simp [revalidate_posts, h]
  · intro h
    by_cases hs : svc.secret = "" <;> simp [revalidate_posts, hs, h, rev_post_ok]
  · intro h hn
    by_cases hs : svc.secret = "" <;>
      simp [revalidate_posts, hs, h, rev_post_ok, hn]

/-- Claim C7 witness: unset secret, a raised request, and a 500
response each give false. -/
theorem claim_C7_witness :
    revalidate_posts ⟨"u", ""⟩ (some "x") (HttpOutcome.response 200) = (false, [])
    ∧ (revalidate_posts ⟨"u", "s"⟩ (some "x") HttpOutcome.raised).1 = false
    ∧ (revalidate_posts ⟨"u", "s"⟩ (some "x") (HttpOutcome.response 500)).1 = false :=
  ⟨(claim_C7 ⟨"u", ""⟩ (some "x") (HttpOutcome.response 200) 0).1 rfl,
   (claim_C7 ⟨"u", "s"⟩ (some "x") HttpOutcome.raised 0).2.1 rfl,
   (claim_C7 ⟨"u", "s"⟩ (some "x") (HttpOutcome.response 500) 500).2.2 rfl (by decide)⟩

/-- Claim C8 counterexample: with a secret configured and a slug that
is the empty string (not null), the POST body is empty rather than the
JSON slug object, because the code tests Python truthiness of the
slug. -/
theorem claim_C8_counterexample :
    ¬ ∀ (slug : Option String), slug ≠ none →
        (revalidate_posts ⟨"u", "s"⟩ slug (HttpOutcome.response 200)).2.map PostCall.body
          = [slug] := by
  intro h
  have h2 := h (some "") (by decide)
  have h3 : (revalidate_posts ⟨"u", "s"⟩ (some "") (HttpOutcome.response 200)).2.map
      PostCall.body = [none] := by decide
  rw [h3] at h2
  exact (by decide : ¬ ([none] = [some ("" : String)])) h2

/-- Claim C8 as amended: with a secret configured, exactly one POST is
attempted, to the configured url with the secret header; the body is
empty when the slug is null or empty and the JSON slug object
otherwise; the result is true exactly for a 2xx response. -/
theorem claim_C8_amended (svc : RevService) (slug : Option String) (out : HttpOutcome)
    (hs : ¬ svc.secret = "") :
    (revalidate_posts svc slug out).2.length = 1
    ∧ (∀ c ∈ (revalidate_posts svc slug out).2,
        c.url = svc.url ∧ c.secretHeader = svc.secret)
    ∧ ((slug = none ∨ slug = some "") →
        (revalidate_posts svc slug out).2 = [⟨svc.url, svc.secret, none⟩])
    ∧ (∀ sl, slug = some sl → ¬ sl = "" →
        (revalidate_posts svc slug out).2 = [⟨svc.url, svc.secret, some sl⟩])
    ∧ ((revalidate_posts svc slug out).1 = true
        ↔ ∃ status, out = HttpOutcome.response status ∧ 200 ≤ status ∧ status < 300) := by
  refine ⟨?_, ?_, ?_, ?_, ?_⟩
  · simp [revalidate_posts, hs]
  · intro c hc
    simp [revalidate_posts, hs] at hc
    simp [hc]
  · intro hsl
    rcases hsl with h | h <;> simp [revalidate_posts, hs, h]
  · intro sl hsl hne
    simp [revalidate_posts, hs, hsl, hne]
  · cases out with
    | raised => simp [revalidate_posts, hs, rev_post_ok]
    | response st0 =>
      by_cases h2 : 200 ≤ st0 ∧ st0 < 300 <;>
        simp [revalidate_posts, hs, rev_post_ok, h2]

/-- Claim C8 witness: a non-empty slug posts the slug object, a null
slug posts an empty body, and a 200 response returns true. -/
theorem claim_C8_witness :
    (revalidate_posts ⟨"u", "s"⟩ (some "my-slug") (HttpOutcome.response 200)).2
        = [⟨"u", "s", some "my-slug"⟩]
    ∧ (revalidate_posts ⟨"u", "s"⟩ none (HttpOutcome.response 200)).2 = [⟨"u", "s", none⟩]
    ∧ (revalidate_posts ⟨"u", "s"⟩ (some "my-slug") (HttpOutcome.response 200)).1 = true :=
  ⟨(claim_C8_amended ⟨"u", "s"⟩ (some "my-slug") (HttpOutcome.response 200)
      (by decide)).2.2.2.1 "my-slug" rfl (by decide),
   (claim_C8_amended ⟨"u", "s"⟩ none (HttpOutcome.response 200) (by decide)).2.2.1
      (Or.inl rfl),
   (claim_C8_amended ⟨"u", "s"⟩ (some "my-slug") (HttpOutcome.response 200)
      (by decide)).2.2.2.2.mpr ⟨200, rfl, by omega⟩⟩

end Tacos
